import Mathlib

/-!
Shallow embedding of the segment-chaining video pipeline in `src/main.py`
(RhythrosaLabs/longed).  Pure data and orchestration logic are translated to
Lean; network responses, decoded video files and extracted frames are passed
in as explicit oracle values, since they come from the outside world.

Conventions of the embedding:
* a PIL image is modelled by its pixel dimensions plus an opaque content id
  (`PILImage`); `Image.resize` changes the dimensions and keeps the content;
* video durations and timestamps are rationals (the Python floats are only
  added and compared here, never rounded);
* an HTTP response to the polling endpoint is a status code plus body bytes;
* Python `None` results become `Option.none`;
* a video file on disk is a `Clip`: whether the path exists, whether
  `VideoFileClip` opens it without raising, its decoded duration, and its
  frame function `frameAt` (timestamp to bitmap).
-/

set_option autoImplicit false

namespace Longed

/-- A PIL image: pixel dimensions plus an opaque content identifier. -/
structure PILImage where
  width : Nat
  height : Nat
  data : Nat
  deriving DecidableEq, Repr

/-- Embeds `PIL.Image.resize`: the result has the requested dimensions and the
same underlying content. -/
def PILImage.resize (img : PILImage) (size : Nat × Nat) : PILImage :=
  { width := size.1, height := size.2, data := img.data }

/-- The supported seed dimensions from `resize_image` (main.py line 65). -/
def supported_sizes : List (Nat × Nat) := [(1024, 576), (576, 1024), (768, 768)]

/-- Embeds `resize_image` (main.py lines 61-70): images already at a supported
size are returned unchanged, any other size is resized to 768x768 and a
warning is shown.  The second component records whether `st.warning` ran. -/
def resize_image (image : PILImage) : PILImage × Bool :=
  if (image.width, image.height) ∈ supported_sizes then
    (image, false)
  else
    (image.resize (768, 768), true)

/-- One HTTP response from the polling endpoint: status code and body bytes
(bytes modelled as a list of naturals). -/
structure PollResponse where
  status : Nat
  body : List Nat
  deriving DecidableEq, Repr

/-- Embeds the `for attempt in range(1, attempts + 1)` loop of
`poll_for_video` (main.py lines 154-171).  The first argument is the poll
interval, the list holds the successive server responses, the fuel is the
remaining attempt budget.  Returns the result (`none` for a raised-and-caught
error or for timeout, `some body` for HTTP 200) together with the total time
slept in `asyncio.sleep` calls.

Per attempt: status 202 sleeps one interval and retries; status 200 returns
the body bytes; any status at least 400 makes `response.raise_for_status()`
raise, the exception is caught and `None` is returned; any other status below
400 makes `raise_for_status` a no-op, so the loop silently moves to the next
attempt without sleeping.  An exhausted response list stands for a transport
exception in `session.get`, which is also caught and yields `None`. -/
def pollLoop (interval : Nat) : List PollResponse → Nat → Option (List Nat) × Nat
  | _, 0 => (none, 0)
  | [], _ + 1 => (none, 0)
  | r :: rs, n + 1 =>
    if r.status = 202 then
      let p := pollLoop interval rs n
      (p.1, interval + p.2)
    else if r.status = 200 then
      (some r.body, 0)
    else if 400 ≤ r.status then
      (none, 0)
    else
      pollLoop interval rs n

/-- Embeds `poll_for_video` (main.py lines 143-171): the attempt budget is
`timeout // interval` and the loop consumes the response stream. -/
def poll_for_video (responses : List PollResponse) (timeout interval : Nat) :
    Option (List Nat) :=
  (pollLoop interval responses (timeout / interval)).1

/-- A video file on disk, as the video library sees it: whether the path
exists (`os.path.exists`), whether `VideoFileClip(path)` constructs without
raising, the decoded duration in seconds, and the decoded frame at each
timestamp. -/
structure Clip where
  path : String
  exists_file : Bool
  readable : Bool
  duration : ℚ
  frameAt : ℚ → PILImage

/-- Embeds `cached_validate_video_clip` (main.py lines 51-59): `False` when
the path is missing, when `VideoFileClip` raises (caught by the bare
`except`), or when the duration is not positive; the probe handle is closed
by the `with` statement in every case. -/
def cached_validate_video_clip (c : Clip) : Bool :=
  if c.exists_file = false then false
  else if c.readable = false then false
  else decide (0 < c.duration)

/-- Embeds `get_last_frame_image` (main.py lines 173-193): `None` for a
missing path, a clip `VideoFileClip` cannot open (exception caught), or a
non-positive duration; otherwise the frame sampled at `duration - 0.001`
(converted to RGB, which keeps the bitmap). -/
def get_last_frame_image (c : Clip) : Option PILImage :=
  if c.exists_file = false then none
  else if c.readable = false then none
  else if c.duration ≤ 0 then none
  else some (c.frameAt (c.duration - 1 / 1000))

/-- A clip as held by moviepy inside `concatenate_videos`: its duration and
the fade-in effect attached to it (`0` when `crossfadein` was not applied). -/
structure ProcClip where
  duration : ℚ
  fadein : ℚ
  deriving DecidableEq, Repr

/-- Embeds moviepy `clip.crossfadein(d)`: attaches a fade-in of length `d`
to the clip and leaves its duration (and every frame) unchanged. -/
def crossfadein (d : ℚ) (c : ProcClip) : ProcClip :=
  { c with fadein := d }

/-- The clip object `VideoFileClip(clip_path)` loaded in the validation loop
of `concatenate_videos`, before any transition is attached. -/
def Clip.toProc (c : Clip) : ProcClip :=
  { duration := c.duration, fadein := 0 }

/-- Embeds the `for i, clip in enumerate(valid_clips)` loop of
`concatenate_videos` (main.py lines 224-228): every clip except the first
(`i != 0`) gets `crossfadein(crossfade_duration)`. -/
def addCrossfades (d : ℚ) : List ProcClip → List ProcClip
  | [] => []
  | c :: cs => c :: cs.map (crossfadein d)

/-- Cumulative start times assigned by moviepy
`concatenate_videoclips(..., method="compose")` with its default `padding=0`:
`tt = np.cumsum([0] + [c.duration for c in clips])`, each clip starting where
the previous one ends. -/
def cumStarts (t : ℚ) : List ProcClip → List ℚ
  | [] => []
  | c :: cs => t :: cumStarts (t + c.duration) cs

/-- Total duration `tt[-1]` assigned by `concatenate_videoclips`: the sum of
the clip durations (default `padding=0`, so clips never overlap). -/
def totalDuration : List ProcClip → ℚ
  | [] => 0
  | c :: cs => c.duration + totalDuration cs

/-- The composite video built by
`concatenate_videoclips(clips, method="compose")`: the clips in order, their
assigned start times, and the overall duration `tt[-1]`. -/
structure FinalVideo where
  clips : List ProcClip
  starts : List ℚ
  duration : ℚ
  deriving DecidableEq, Repr

/-- Embeds `concatenate_videoclips(clips, method="compose")` with the default
`padding=0` and `transition=None` (moviepy 1.x `concatenate.py`). -/
def concatenate_videoclips_compose (cs : List ProcClip) : FinalVideo :=
  { clips := cs, starts := cumStarts 0 cs, duration := totalDuration cs }

/-- The validation loop of `concatenate_videos` (main.py lines 200-213): a
clip path ends up in `valid_clips` exactly when `cached_validate_video_clip`
accepts it, and then `VideoFileClip(clip_path)` loads it (the file was just
opened successfully by the validator, so the load succeeds too; a failed
validation or load only warns and moves on). -/
def validClips (clips : List Clip) : List Clip :=
  clips.filter (fun c => cached_validate_video_clip c)

/-- Result of `concatenate_videos`: the returned pair (both components `None`
on failure) plus the paths of the `VideoFileClip` handles opened during the
call that are still open when it returns. -/
structure ConcatResult where
  final : Option FinalVideo
  valid : Option (List Clip)
  openHandles : List String

/-- Embeds `concatenate_videos` (main.py lines 195-239).  `concatRaises`
says whether the `concatenate_videoclips` step raises.  Validation-probe
handles are closed by their `with` blocks.  With no valid clip the function
returns `(None, None)` having kept nothing open and written nothing.  When
the concatenation step raises, the `except` branch closes every loaded clip
and returns `(None, None)`.  On success the loaded clips are returned still
open, backing the composite video. -/
def concatenate_videos (clips : List Clip) (crossfade_duration : ℚ)
    (concatRaises : Bool) : ConcatResult :=
  let valid := validClips clips
  if valid.isEmpty then
    { final := none, valid := none, openHandles := [] }
  else if concatRaises then
    { final := none, valid := none, openHandles := [] }
  else
    let procs := valid.map Clip.toProc
    let withT :=
      if 0 < crossfade_duration then addCrossfades crossfade_duration procs
      else procs
    { final := some (concatenate_videoclips_compose withT),
      valid := some valid,
      openHandles := valid.map Clip.path }

/-- The clip path written for segment `i` (0-based) in the Text-to-Video
loop: `os.path.join(temp_dir, f"video_segment_I.mp4")` with `I = i + 1`
(the temporary directory prefix is elided). -/
def segPath (i : Nat) : String :=
  "video_segment_" ++ toString (i + 1) ++ ".mp4"

/-- What the outside world returns for one segment of the chain: the result
of `start_video_generation` (a generation id, or `None` on failure), the
stream of HTTP responses the poll loop will see, and the result of
`get_last_frame_image` on the saved clip file. -/
structure SegmentEnv where
  generation_id : Option Nat
  poll : List PollResponse
  last_frame : Option PILImage
  deriving DecidableEq, Repr

/-- The orchestrator state carried through the Text-to-Video segment loop:
`st.session_state.generated_images`, `st.session_state.generated_videos`,
and the `current_image` local. -/
structure ChainState where
  images : List PILImage
  videos : List String
  current : PILImage
  deriving DecidableEq, Repr

/-- Embeds one iteration of the Text-to-Video segment loop (main.py lines
522-547) for segment index `i`.  A failed `start_video_generation` or a
`None` from `poll_for_video` only shows an error and leaves the state
untouched.  On video content the clip path is appended to
`generated_videos`; then, if the last frame is extracted, it is resized to
the selected resolution, becomes `current_image` and is appended to
`generated_images`; otherwise a warning is shown and the seed is kept. -/
def segmentStep (resolution : Nat × Nat) (i : Nat) (env : SegmentEnv)
    (s : ChainState) : ChainState :=
  match env.generation_id with
  | none => s
  | some _ =>
    match poll_for_video env.poll 600 10 with
    | none => s
    | some _ =>
      let s1 : ChainState := { s with videos := s.videos ++ [segPath i] }
      match env.last_frame with
      | none => s1
      | some img =>
        let cur := img.resize resolution
        { s1 with current := cur, images := s1.images ++ [cur] }

/-- Embeds `for i in range(num_segments)` of the Text-to-Video branch:
fold `segmentStep` over the per-segment environments, starting at index
`i`. -/
def runChain (resolution : Nat × Nat) : List SegmentEnv → Nat → ChainState →
    ChainState
  | [], _, s => s
  | e :: es, i, s => runChain resolution es (i + 1) (segmentStep resolution i e s)

/-- Embeds the seeding step of the Text-to-Video branch (main.py lines
511-519): the generated image is passed through `resize_image`, then resized
to the selected resolution, appended to `generated_images`, and becomes
`current_image`; `generated_videos` starts empty (cleared at line 424). -/
def initChain (seed : PILImage) (resolution : Nat × Nat) : ChainState :=
  let img := ((resize_image seed).1).resize resolution
  { images := [img], videos := [], current := img }

/-- The part of `st.session_state` the generation entry point touches. -/
structure SessionState where
  generated_images : List PILImage
  generated_videos : List String
  final_video : Option String
  deriving DecidableEq, Repr

/-- The three UI modes offered at main.py line 375. -/
inductive Mode where
  | textToVideo
  | imageToVideo
  | snapshot
  deriving DecidableEq, Repr

/-- Whether the mode takes a text prompt, the
`mode in ["Text-to-Video", "Snapshot Mode"]` test of main.py line 414. -/
def promptDriven : Mode → Bool
  | Mode.textToVideo => true
  | Mode.snapshot => true
  | Mode.imageToVideo => false

/-- Embeds the precondition block of the Generate Content handler (main.py
lines 409-425).  `api_key` and `prompt` are the raw text-input values (the
empty string is Python-falsy, matching `not api_key` / `not prompt`);
`image_file` is the uploader result.  Each failed check shows `st.error` and
returns before anything else runs; only after all checks pass are
`generated_images`, `generated_videos` and `final_video` cleared.  The
boolean reports whether the handler got past the checks. -/
def generate_content_precheck (mode : Mode) (api_key prompt : String)
    (image_file : Option PILImage) (s : SessionState) : SessionState × Bool :=
  if api_key = "" then (s, false)
  else if promptDriven mode = true ∧ prompt = "" then (s, false)
  else if mode = Mode.imageToVideo ∧ image_file = none then (s, false)
  else
    ({ generated_images := [], generated_videos := [], final_video := none },
      true)

/-- Embeds `generate_multiple_images_concurrently` (main.py lines 241-251).
`outcomes` is the `asyncio.gather` result: one entry per submitted task, in
submission order, `none` where `generate_image_from_text` failed and returned
`None`.  The list comprehension
`[img for img in images if img is not None]` keeps the non-`None` images. -/
def generate_multiple_images_concurrently (outcomes : List (Option PILImage)) :
    List PILImage :=
  match outcomes with
  | [] => []
  | none :: rest => generate_multiple_images_concurrently rest
  | some img :: rest => img :: generate_multiple_images_concurrently rest

/-- A default bitmap, only used as the `Option.getD` fallback in statements
whose hypotheses already force the option to be `some`. -/
def blankImage : PILImage := ⟨0, 0, 0⟩

/-- Sample bitmap already at the supported 768x768 size. -/
def imgSquare : PILImage := ⟨768, 768, 1⟩

/-- Sample bitmap at an unsupported size. -/
def imgSmall : PILImage := ⟨50, 60, 2⟩

/-- Sample healthy 2-second clip. -/
def clipA : Clip :=
  { path := "a.mp4", exists_file := true, readable := true, duration := 2,
    frameAt := fun _ => imgSquare }

/-- Second sample healthy 2-second clip. -/
def clipB : Clip :=
  { path := "b.mp4", exists_file := true, readable := true, duration := 2,
    frameAt := fun _ => imgSmall }

/-- Sample clip whose file does not exist. -/
def clipMissing : Clip :=
  { path := "m.mp4", exists_file := false, readable := true, duration := 2,
    frameAt := fun _ => imgSquare }

/-- Sample clip that decodes to a zero duration. -/
def clipZero : Clip :=
  { path := "z.mp4", exists_file := true, readable := true, duration := 0,
    frameAt := fun _ => imgSquare }

/-- Sample segment environment in which every stage succeeds. -/
def envOK : SegmentEnv :=
  { generation_id := some 1, poll := [⟨200, [7]⟩], last_frame := some imgSmall }

/-- Sample segment environment whose poll loop sees sixty HTTP 202 responses
and therefore times out. -/
def envTimeout : SegmentEnv :=
  { generation_id := some 1, poll := List.replicate 60 ⟨202, []⟩,
    last_frame := some imgSmall }

/-- Sample non-empty session state. -/
def sampleSession : SessionState :=
  { generated_images := [imgSquare], generated_videos := ["v.mp4"],
    final_video := some "f.mp4" }

/-! Helper lemmas. -/

theorem gmic_map_some_sublist (l : List (Option PILImage)) :
    List.Sublist ((generate_multiple_images_concurrently l).map some) l := by
  induction l with
  | nil => simp [generate_multiple_images_concurrently]
  | cons o rest ih =>
    cases o with
    | none =>
      simpa [generate_multiple_images_concurrently] using ih.cons none
    | some img =>
      simpa [generate_multiple_images_concurrently] using ih.cons₂ (some img)

theorem gmic_length_filter (l : List (Option PILImage)) :
    (generate_multiple_images_concurrently l).length =
      (l.filter (fun o => o.isSome)).length := by
  induction l with
  | nil => rfl
  | cons o rest ih =>
    cases o with
    | none => simpa [generate_multiple_images_concurrently] using ih
    | some img => simpa [generate_multiple_images_concurrently] using ih

/-! Claim theorems. -/

/-- C7: `resize_image` always lands in the supported size set, is the
identity (with no warning) on a supported size, resizes anything else to
768x768 with a warning, and is idempotent: resizing its own output again is
a warning-free no-op. -/
theorem C7_resize_image_supported (img : PILImage) :
    ((resize_image img).1.width, (resize_image img).1.height) ∈ supported_sizes ∧
    ((img.width, img.height) ∈ supported_sizes → resize_image img = (img, false)) ∧
    ((img.width, img.height) ∉ supported_sizes →
      resize_image img = (img.resize (768, 768), true)) ∧
    resize_image (resize_image img).1 = ((resize_image img).1, false) := by
  by_cases h : (img.width, img.height) ∈ supported_sizes
  · refine ⟨?_, fun _ => ?_, fun hn => absurd h hn, ?_⟩
    · simp only [resize_image, if_pos h]
      exact h
    · simp [resize_image, h]
    · simp [resize_image, h]
  · have hmem : ((768 : Nat), (768 : Nat)) ∈ supported_sizes := by
      simp [supported_sizes]
    refine ⟨?_, fun hs => absurd hs h, fun _ => ?_, ?_⟩
    · simpa [resize_image, h, PILImage.resize] using hmem
    · simp [resize_image, h]
    · have h1 : resize_image img = (img.resize (768, 768), true) := by
        simp [resize_image, h]
      rw [h1]
      simp [resize_image, PILImage.resize, supported_sizes]

/-- Witness for C7 at one supported-size image and one unsupported-size
image. -/
theorem C7_witness :
    resize_image imgSquare = (imgSquare, false) ∧
    resize_image imgSmall = (imgSmall.resize (768, 768), true) :=
  ⟨(C7_resize_image_supported imgSquare).2.1 (by decide),
   (C7_resize_image_supported imgSmall).2.2.1 (by decide)⟩

/-- C8: when the API key is missing, or the prompt is missing in a
prompt-driven mode, or the image is missing in Image-to-Video mode, the
Generate Content handler returns before its clearing step, leaving the
session state exactly as it was. -/
theorem C8_precheck_no_side_effects (mode : Mode) (api_key prompt : String)
    (image_file : Option PILImage) (s : SessionState)
    (h : api_key = "" ∨ (promptDriven mode = true ∧ prompt = "") ∨
      (mode = Mode.imageToVideo ∧ image_file = none)) :
    generate_content_precheck mode api_key prompt image_file s = (s, false) := by
  unfold generate_content_precheck
  split_ifs with h1 h2 h3
  · rfl
  · rfl
  · rfl
  · rcases h with h | h | h
    · exact absurd h h1
    · exact absurd h h2
    · exact absurd h h3

/-- Witness for C8: a missing API key aborts with the session state
untouched. -/
theorem C8_witness :
    generate_content_precheck Mode.textToVideo "" "a castle at dusk" none
      sampleSession = (sampleSession, false) :=
  C8_precheck_no_side_effects Mode.textToVideo "" "a castle at dusk" none
    sampleSession (Or.inl rfl)

/-- C10: with one gathered outcome per submitted task,
`generate_multiple_images_concurrently` returns exactly the successful
images: the result is at most `num_images` long, its elements listed as
`some` values form an order-preserving sublist of the outcomes, its length is
the number of non-`None` outcomes, and every element is a non-`None` outcome
value. -/
theorem C10_filter_successful (outcomes : List (Option PILImage))
    (num_images : Nat) (h : outcomes.length = num_images) :
    (generate_multiple_images_concurrently outcomes).length ≤ num_images ∧
    List.Sublist ((generate_multiple_images_concurrently outcomes).map some) outcomes ∧
    (generate_multiple_images_concurrently outcomes).length =
      (outcomes.filter (fun o => o.isSome)).length ∧
    ∀ img ∈ generate_multiple_images_concurrently outcomes,
      some img ∈ outcomes := by
  refine ⟨?_, gmic_map_some_sublist outcomes, gmic_length_filter outcomes, ?_⟩
  · have hle := (gmic_map_some_sublist outcomes).length_le
    simpa [h] using hle
  · intro img hmem
    exact (gmic_map_some_sublist outcomes).subset (List.mem_map_of_mem some hmem)

/-- Witness for C10 on three outcomes with one failure. -/
theorem C10_witness :
    (generate_multiple_images_concurrently [some imgSquare, none, some imgSmall]).length ≤ 3 ∧
    List.Sublist
      ((generate_multiple_images_concurrently
        [some imgSquare, none, some imgSmall]).map some)
      [some imgSquare, none, some imgSmall] ∧
    (generate_multiple_images_concurrently [some imgSquare, none, some imgSmall]).length =
      (([some imgSquare, none, some imgSmall] :
        List (Option PILImage)).filter (fun o => o.isSome)).length ∧
    ∀ img ∈ generate_multiple_images_concurrently [some imgSquare, none, some imgSmall],
      some img ∈ [some imgSquare, none, some imgSmall] :=
  C10_filter_successful [some imgSquare, none, some imgSmall] 3 rfl

/-- C5: `get_last_frame_image` returns `None` (it does not raise) on a
missing file or a non-positive duration; on a readable positive-duration clip
it samples the frame at `duration - 0.001`; and in the orchestrator a `None`
extraction leaves both the current seed image and the stored image list
unchanged (only a warning is shown). -/
theorem C5_last_frame_policy (c : Clip) (resolution : Nat × Nat) (i : Nat)
    (env : SegmentEnv) (s : ChainState) :
    (c.exists_file = false ∨ c.duration ≤ 0 → get_last_frame_image c = none) ∧
    (c.exists_file = true → c.readable = true → 0 < c.duration →
      get_last_frame_image c = some (c.frameAt (c.duration - 1 / 1000))) ∧
    (env.last_frame = none →
      (segmentStep resolution i env s).current = s.current ∧
      (segmentStep resolution i env s).images = s.images) := by
  refine ⟨?_, ?_, ?_⟩
  · intro h
    unfold get_last_frame_image
    rcases h with h | h
    · simp [h]
    · simp [h]
  · intro h1 h2 h3
    unfold get_last_frame_image
    simp [h1, h2, not_le.mpr h3]
  · intro hnone
    cases hgen : env.generation_id with
    | none => simp [segmentStep, hgen]
    | some g =>
      cases hpoll : poll_for_video env.poll 600 10 with
      | none => simp [segmentStep, hgen, hpoll]
      | some content => simp [segmentStep, hgen, hpoll, hnone]

/-- Witness for C5: the missing-file clip and the zero-duration clip both
yield `None`, a healthy clip yields its frame near the end, and a failed
extraction in the loop keeps the seed. -/
theorem C5_witness :
    get_last_frame_image clipMissing = none ∧
    get_last_frame_image clipZero = none ∧
    get_last_frame_image clipA = some (clipA.frameAt (clipA.duration - 1 / 1000)) ∧
    (segmentStep (1920, 1080) 0
        { generation_id := some 1, poll := [⟨200, [7]⟩], last_frame := none }
        (initChain imgSquare (1920, 1080))).current =
      (initChain imgSquare (1920, 1080)).current :=
  ⟨((C5_last_frame_policy clipMissing (1920, 1080) 0 envOK
      (initChain imgSquare (1920, 1080))).1 (Or.inl rfl)),
   ((C5_last_frame_policy clipZero (1920, 1080) 0 envOK
      (initChain imgSquare (1920, 1080))).1 (Or.inr le_rfl)),
   ((C5_last_frame_policy clipA (1920, 1080) 0 envOK
      (initChain imgSquare (1920, 1080))).2.1 rfl rfl (by norm_num [clipA])),
   ((C5_last_frame_policy clipA (1920, 1080) 0
      { generation_id := some 1, poll := [⟨200, [7]⟩], last_frame := none }
      (initChain imgSquare (1920, 1080))).2.2 rfl).1⟩

/-- Clips that are missing or have non-positive duration fail validation. -/
theorem validate_false_of_invalid {c : Clip}
    (h : c.exists_file = false ∨ c.duration ≤ 0) :
    cached_validate_video_clip c = false := by
  unfold cached_validate_video_clip
  split_ifs with h1 h2
  · rfl
  · rfl
  · rcases h with h | h
    · simp [h] at h1
    · simpa using not_lt.mpr h

/-- C6: `concatenate_videos` drops every missing or non-positive-duration
clip from the valid set, keeps exactly the clips that pass validation (in
order, invalid neighbours notwithstanding), and on an all-invalid list
returns the `(None, None)` failure having produced no final video and
keeping no handle open (the function itself writes no file; the caller only
writes after a non-`None` result). -/
theorem C6_validation_policy (clips : List Clip) (d : ℚ) (r : Bool) :
    (∀ c : Clip, c.exists_file = false ∨ c.duration ≤ 0 → c ∉ validClips clips) ∧
    (∀ c : Clip, c ∈ validClips clips ↔
      c ∈ clips ∧ cached_validate_video_clip c = true) ∧
    ((∀ c ∈ clips, c.exists_file = false ∨ c.duration ≤ 0) →
      (concatenate_videos clips d r).final = none ∧
      (concatenate_videos clips d r).valid = none ∧
      (concatenate_videos clips d r).openHandles = []) := by
  refine ⟨?_, ?_, ?_⟩
  · intro c hc hmem
    have hv := (List.mem_filter.mp hmem).2
    rw [validate_false_of_invalid hc] at hv
    exact Bool.false_ne_true hv
  · intro c
    exact List.mem_filter
  · intro hall
    have hempty : validClips clips = [] := by
      refine List.filter_eq_nil_iff.mpr ?_
      intro c hc
      simp [validate_false_of_invalid (hall c hc)]
    unfold concatenate_videos
    rw [hempty]
    simp

/-- Witness for C6 on a list holding one missing and one zero-duration
clip. -/
theorem C6_witness :
    (concatenate_videos [clipMissing, clipZero] (1 / 2) false).final = none ∧
    (concatenate_videos [clipMissing, clipZero] (1 / 2) false).valid = none ∧
    (concatenate_videos [clipMissing, clipZero] (1 / 2) false).openHandles = [] := by
  refine (C6_validation_policy [clipMissing, clipZero] (1 / 2) false).2.2 ?_
  intro c hc
  rcases List.mem_cons.mp hc with rfl | hc
  · exact Or.inl rfl
  · rcases List.mem_cons.mp hc with rfl | hc
    · exact Or.inr le_rfl
    · exact absurd hc (List.not_mem_nil c)

/-- Fully successful segments append one clip path and one resized extracted
frame each, whatever the starting state and starting index. -/
theorem runChain_success (res : Nat × Nat) (envs : List SegmentEnv) :
    ∀ (i : Nat) (s : ChainState),
      (∀ e ∈ envs, e.generation_id.isSome ∧
        (poll_for_video e.poll 600 10).isSome ∧ e.last_frame.isSome) →
      (runChain res envs i s).videos =
        s.videos ++ (List.range envs.length).map (fun k => segPath (i + k)) ∧
      (runChain res envs i s).images =
        s.images ++ envs.map (fun e => (e.last_frame.getD blankImage).resize res) := by
  induction envs with
  | nil => intro i s _; simp [runChain]
  | cons e es ih =>
    intro i s h
    obtain ⟨hgen, hpoll, hframe⟩ := h e (List.mem_cons_self e es)
    obtain ⟨g, hg⟩ := Option.isSome_iff_exists.mp hgen
    obtain ⟨content, hp⟩ := Option.isSome_iff_exists.mp hpoll
    obtain ⟨f, hf⟩ := Option.isSome_iff_exists.mp hframe
    have hstep : segmentStep res i e s =
        { images := s.images ++ [f.resize res],
          videos := s.videos ++ [segPath i],
          current := f.resize res } := by
      simp [segmentStep, hg, hp, hf]
    have hrest := ih (i + 1) (segmentStep res i e s)
      (fun x hx => h x (List.mem_cons_of_mem e hx))
    obtain ⟨hv, hi⟩ := hrest
    rw [hstep] at hv hi
    have hrange : (List.range (es.length + 1)).map (fun k => segPath (i + k)) =
        segPath i :: (List.range es.length).map (fun k => segPath (i + 1 + k)) := by
      rw [List.range_succ_eq_map]
      simp only [List.map_cons, List.map_map, Nat.add_zero]
      refine congrArg (segPath i :: ·) (List.map_congr_left ?_)
      intro k _
      simp only [Function.comp_apply]
      congr 1
      omega
    constructor
    · show (runChain res es (i + 1) (segmentStep res i e s)).videos = _
      rw [hstep, hv]
      simp only [List.length_cons, hrange]
      simp
    · show (runChain res es (i + 1) (segmentStep res i e s)).images = _
      rw [hstep, hi]
      simp [hf]

/-- C1: when every segment job succeeds end to end (generation id returned,
poll returns bytes, last-frame extraction succeeds), the Text-to-Video chain
leaves exactly one clip path per segment in `generated_videos`, in segment
order, and `generated_images` holds the initial seed followed by the resized
extracted last frames, in order, hence N clips and N+1 images. -/
theorem C1_chain_counts (seed : PILImage) (res : Nat × Nat)
    (envs : List SegmentEnv)
    (h : ∀ e ∈ envs, e.generation_id.isSome ∧
      (poll_for_video e.poll 600 10).isSome ∧ e.last_frame.isSome) :
    (runChain res envs 0 (initChain seed res)).videos =
      (List.range envs.length).map (fun k => segPath k) ∧
    (runChain res envs 0 (initChain seed res)).images =
      (initChain seed res).current ::
        envs.map (fun e => (e.last_frame.getD blankImage).resize res) ∧
    (runChain res envs 0 (initChain seed res)).videos.length = envs.length ∧
    (runChain res envs 0 (initChain seed res)).images.length = envs.length + 1 := by
  obtain ⟨hv, hi⟩ := runChain_success res envs 0 (initChain seed res) h
  have hv0 : (runChain res envs 0 (initChain seed res)).videos =
      (List.range envs.length).map (fun k => segPath k) := by
    rw [hv]
    simp [initChain]
  have hi0 : (runChain res envs 0 (initChain seed res)).images =
      (initChain seed res).current ::
        envs.map (fun e => (e.last_frame.getD blankImage).resize res) := by
    rw [hi]
    simp [initChain]
  refine ⟨hv0, hi0, ?_, ?_⟩
  · rw [hv0]
    simp
  · rw [hi0]
    simp

/-- Witness for C1 on a two-segment fully successful run. -/
theorem C1_witness :
    (runChain (1920, 1080) [envOK, envOK] 0
        (initChain imgSquare (1920, 1080))).videos =
      (List.range 2).map (fun k => segPath k) ∧
    (runChain (1920, 1080) [envOK, envOK] 0
        (initChain imgSquare (1920, 1080))).images =
      (initChain imgSquare (1920, 1080)).current ::
        [envOK, envOK].map
          (fun e => (e.last_frame.getD blankImage).resize (1920, 1080)) ∧
    (runChain (1920, 1080) [envOK, envOK] 0
        (initChain imgSquare (1920, 1080))).videos.length = 2 ∧
    (runChain (1920, 1080) [envOK, envOK] 0
        (initChain imgSquare (1920, 1080))).images.length = 2 + 1 :=
  C1_chain_counts imgSquare (1920, 1080) [envOK, envOK] (by decide)

/-- One step of the poll loop, by definition. -/
theorem pollLoop_cons (interval : Nat) (r : PollResponse)
    (rs : List PollResponse) (n : Nat) :
    pollLoop interval (r :: rs) (n + 1) =
      if r.status = 202 then
        ((pollLoop interval rs n).1, interval + (pollLoop interval rs n).2)
      else if r.status = 200 then (some r.body, 0)
      else if 400 ≤ r.status then (none, 0)
      else pollLoop interval rs n := rfl

/-- The poll loop never inspects more responses than it has attempts. -/
theorem pollLoop_take (interval : Nat) :
    ∀ (n : Nat) (rs : List PollResponse),
      pollLoop interval rs n = pollLoop interval (rs.take n) n := by
  intro n
  induction n with
  | zero => intro rs; cases rs <;> rfl
  | succ n ih =>
    intro rs
    cases rs with
    | nil => rfl
    | cons r rs =>
      show pollLoop interval (r :: rs) (n + 1) =
        pollLoop interval (r :: rs.take n) (n + 1)
      rw [pollLoop_cons, pollLoop_cons]
      by_cases h1 : r.status = 202
      · simp only [if_pos h1]
        rw [ih rs]
      · simp only [if_neg h1]
        by_cases h2 : r.status = 200
        · simp only [if_pos h2]
        · simp only [if_neg h2]
          by_cases h3 : 400 ≤ r.status
          · simp only [if_pos h3]
          · simp only [if_neg h3]
            exact ih rs

/-- A run of nothing but HTTP 202 responses at least as long as the attempt
budget exhausts the budget and yields the timed-out `None`. -/
theorem pollLoop_all202_none (interval : Nat) :
    ∀ (n : Nat) (rs : List PollResponse), (∀ r ∈ rs, r.status = 202) →
      n ≤ rs.length → (pollLoop interval rs n).1 = none := by
  intro n
  induction n with
  | zero => intro rs _ _; cases rs <;> rfl
  | succ n ih =>
    intro rs hall hlen
    cases rs with
    | nil => simp at hlen
    | cons r rs =>
      have h202 := hall r (List.mem_cons_self r rs)
      have hstep : pollLoop interval (r :: rs) (n + 1) =
          ((pollLoop interval rs n).1, interval + (pollLoop interval rs n).2) := by
        rw [pollLoop_cons]
        simp [h202]
      rw [hstep]
      exact ih rs (fun x hx => hall x (List.mem_cons_of_mem r hx))
        (Nat.succ_le_succ_iff.mp (by simpa using hlen))

/-- C2 counterexample: the claim says any status other than 202 and 200 maps
to a failed null result, but `response.raise_for_status()` only raises for
statuses at least 400, so a 204 response is silently retried and the next
attempt's 200 still delivers the bytes. -/
theorem C2_counterexample :
    poll_for_video [⟨204, []⟩, ⟨200, [7]⟩] 600 10 = some [7] ∧
    (some [7] : Option (List Nat)) ≠ none := by
  refine ⟨by decide, by simp⟩

/-- C2 as amended: HTTP 202 sleeps one interval and retries; HTTP 200
returns the body bytes; a status of at least 400 raises, is caught, and
yields the failed `None`; any other status below 400 silently consumes an
attempt without sleeping; the loop makes at most `timeout // interval`
attempts (60 at the defaults 600 and 10), exhausting them yields the
timed-out `None`; and a timed-out segment leaves the orchestrator state
(including the current seed) unchanged while the chain moves on to the next
segment. -/
theorem C2_poll_behavior :
    (∀ (interval : Nat) (r : PollResponse) (rs : List PollResponse) (n : Nat),
      (r.status = 202 →
        pollLoop interval (r :: rs) (n + 1) =
          ((pollLoop interval rs n).1, interval + (pollLoop interval rs n).2)) ∧
      (r.status = 200 →
        pollLoop interval (r :: rs) (n + 1) = (some r.body, 0)) ∧
      (400 ≤ r.status →
        pollLoop interval (r :: rs) (n + 1) = (none, 0)) ∧
      (r.status ≠ 202 → r.status ≠ 200 → r.status < 400 →
        pollLoop interval (r :: rs) (n + 1) = pollLoop interval rs n)) ∧
    600 / 10 = 60 ∧
    (∀ rs : List PollResponse,
      poll_for_video rs 600 10 = poll_for_video (rs.take 60) 600 10) ∧
    (∀ rs : List PollResponse, (∀ r ∈ rs, r.status = 202) → 60 ≤ rs.length →
      poll_for_video rs 600 10 = none) ∧
    (∀ (res : Nat × Nat) (i : Nat) (e : SegmentEnv) (es : List SegmentEnv)
        (s : ChainState),
      e.generation_id.isSome → poll_for_video e.poll 600 10 = none →
      runChain res (e :: es) i s = runChain res es (i + 1) s) := by
  refine ⟨?_, rfl, ?_, ?_, ?_⟩
  · intro interval r rs n
    refine ⟨?_, ?_, ?_, ?_⟩
    · intro h
      rw [pollLoop_cons]
      simp [h]
    · intro h
      have h1 : r.status ≠ 202 := by omega
      rw [pollLoop_cons]
      simp [h, h1]
    · intro h
      have h1 : r.status ≠ 202 := by omega
      have h2 : r.status ≠ 200 := by omega
      rw [pollLoop_cons]
      simp [h, h1, h2]
    · intro h1 h2 h3
      have h4 : ¬ 400 ≤ r.status := not_le.mpr h3
      rw [pollLoop_cons]
      simp [h1, h2, h4]
  · intro rs
    show (pollLoop 10 rs (600 / 10)).1 = (pollLoop 10 (rs.take 60) (600 / 10)).1
    rw [show (600 : Nat) / 10 = 60 from rfl, pollLoop_take 10 60 rs]
  · intro rs hall hlen
    exact pollLoop_all202_none 10 (600 / 10) rs hall hlen
  · intro res i e es s hgen hpoll
    obtain ⟨g, hg⟩ := Option.isSome_iff_exists.mp hgen
    have hstep : segmentStep res i e s = s := by
      simp [segmentStep, hg, hpoll]
    show runChain res es (i + 1) (segmentStep res i e s) =
      runChain res es (i + 1) s
    rw [hstep]

/-- Witness for C2: a 202 then a 200 delivers the bytes having slept one
interval, sixty straight 202 responses time out to `None`, and a timed-out
segment leaves the chain state for the next segment unchanged. -/
theorem C2_witness :
    pollLoop 10 [⟨202, []⟩, ⟨200, [5]⟩] 2 =
      ((pollLoop 10 [⟨200, [5]⟩] 1).1, 10 + (pollLoop 10 [⟨200, [5]⟩] 1).2) ∧
    poll_for_video (List.replicate 60 ⟨202, []⟩) 600 10 = none ∧
    runChain (1920, 1080) [envTimeout] 0 (initChain imgSquare (1920, 1080)) =
      runChain (1920, 1080) [] 1 (initChain imgSquare (1920, 1080)) :=
  ⟨(C2_poll_behavior.1 10 ⟨202, []⟩ [⟨200, [5]⟩] 1).1 rfl,
   C2_poll_behavior.2.2.2.1 (List.replicate 60 ⟨202, []⟩)
     (by intro r hr; rw [List.eq_of_mem_replicate hr]) (by simp),
   C2_poll_behavior.2.2.2.2 (1920, 1080) 0 envTimeout [] _ (by decide)
     (by decide)⟩

/-- Total composed duration is the sum of the listed durations. -/
theorem totalDuration_eq_sum (ps : List ProcClip) :
    totalDuration ps = (ps.map ProcClip.duration).sum := by
  induction ps <;> simp_all [totalDuration]

/-- The transition pass does not change the total composed duration. -/
theorem totalDuration_addCrossfades (d : ℚ) (ps : List ProcClip) :
    totalDuration (addCrossfades d ps) = totalDuration ps := by
  cases ps with
  | nil => rfl
  | cons c cs =>
    simp only [addCrossfades, totalDuration, totalDuration_eq_sum, List.map_map]
    refine congrArg (fun x => c.duration + x) ?_
    exact congrArg List.sum (List.map_congr_left (fun a _ => rfl))

/-- Equal-duration clips sum to length times the common duration. -/
theorem totalDuration_toProc_const (L : ℚ) (cs : List Clip)
    (h : ∀ c ∈ cs, c.duration = L) :
    totalDuration (cs.map Clip.toProc) = cs.length * L := by
  induction cs with
  | nil => simp [totalDuration]
  | cons c cl ih =>
    have hc := h c (List.mem_cons_self c cl)
    have ih2 := ih (fun x hx => h x (List.mem_cons_of_mem c hx))
    simp only [List.map_cons, totalDuration, ih2, Clip.toProc, hc,
      List.length_cons]
    push_cast
    ring

/-- The transition pass keeps every clip duration intact. -/
theorem map_duration_addCrossfades_toProc (d : ℚ) (cs : List Clip) :
    (addCrossfades d (cs.map Clip.toProc)).map ProcClip.duration =
      cs.map Clip.duration := by
  cases cs with
  | nil => rfl
  | cons v vs =>
    simp only [List.map_cons, addCrossfades, List.map_map]
    exact congrArg₂ List.cons rfl (List.map_congr_left (fun a _ => rfl))

/-- The transition pass attaches fade-in `d` to every clip after the
first. -/
theorem map_fadein_addCrossfades_toProc (d : ℚ) (v : Clip) (vs : List Clip) :
    (addCrossfades d ((v :: vs).map Clip.toProc)).map ProcClip.fadein =
      0 :: List.replicate vs.length d := by
  simp only [List.map_cons, addCrossfades, List.map_map]
  refine congrArg₂ List.cons rfl ?_
  induction vs with
  | nil => rfl
  | cons a t ih =>
    simp only [List.map_cons, List.replicate_succ, List.length_cons]
    exact congrArg₂ List.cons rfl ih

/-- Without the transition pass no clip carries a fade-in. -/
theorem map_fadein_toProc (cs : List Clip) :
    (cs.map Clip.toProc).map ProcClip.fadein = List.replicate cs.length 0 := by
  simp only [List.map_map]
  induction cs with
  | nil => rfl
  | cons a t ih =>
    simp only [List.map_cons, List.replicate_succ, List.length_cons]
    exact congrArg₂ List.cons rfl ih

/-- The success path of `concatenate_videos`, written out. -/
theorem concatenate_videos_eq (clips : List Clip) (d : ℚ)
    (hne : (validClips clips).isEmpty = false) :
    concatenate_videos clips d false =
      { final := some (concatenate_videoclips_compose
          (if 0 < d then addCrossfades d ((validClips clips).map Clip.toProc)
           else (validClips clips).map Clip.toProc)),
        valid := some (validClips clips),
        openHandles := (validClips clips).map Clip.path } := by
  unfold concatenate_videos
  simp [hne]

/-- Validation accepts the sample clip `clipA`. -/
theorem validate_clipA : cached_validate_video_clip clipA = true := by
  norm_num [cached_validate_video_clip, clipA]

/-- Validation accepts the sample clip `clipB`. -/
theorem validate_clipB : cached_validate_video_clip clipB = true := by
  norm_num [cached_validate_video_clip, clipB]

/-- Both sample clips survive the validation pass. -/
theorem validClips_AB : validClips [clipA, clipB] = [clipA, clipB] := by
  simp [validClips, List.filter_cons, validate_clipA, validate_clipB]

/-- The singleton sample clip list survives the validation pass. -/
theorem validClips_A : validClips [clipA] = [clipA] := by
  simp [validClips, List.filter_cons, validate_clipA]

/-- The sample two-clip list has a non-empty valid set. -/
theorem validAB_ne : (validClips [clipA, clipB]).isEmpty = false := by
  rw [validClips_AB]
  rfl

/-- The sample one-clip list has a non-empty valid set. -/
theorem validA_ne : (validClips [clipA]).isEmpty = false := by
  rw [validClips_A]
  rfl

/-- C3 counterexample: two valid 2-second clips with a 0.5-second crossfade
produce a composite of duration 4, not the claimed 2*2 - 1*0.5 = 3.5; the
0.5 gap also exceeds any frame-interval-sized tolerance (0.25 covers one
frame even at 4 fps). -/
theorem C3_counterexample :
    (concatenate_videos [clipA, clipB] (1 / 2) false).final.map
        FinalVideo.duration = some 4 ∧
    (4 : ℚ) ≠ 2 * 2 - (2 - 1) * (1 / 2) ∧
    (1 : ℚ) / 4 < |4 - (2 * 2 - (2 - 1) * (1 / 2))| := by
  refine ⟨?_, by norm_num, by rw [abs_of_pos (by norm_num)]; norm_num⟩
  rw [concatenate_videos_eq [clipA, clipB] (1 / 2) validAB_ne, validClips_AB]
  simp only [Option.map_some]
  rw [if_pos (by norm_num : (0 : ℚ) < 1 / 2)]
  norm_num [concatenate_videoclips_compose, addCrossfades, Clip.toProc,
    totalDuration, crossfadein, clipA, clipB]

/-- C3 as amended: for every crossfade duration `d` (including `d > 0`), N
valid clips of duration L each concatenate to total duration N*L — the
`crossfadein` calls add a fade-in effect but `concatenate_videoclips` with
its default `padding=0` lays the clips end to end with no overlap and no
trim. -/
theorem C3_total_duration (clips : List Clip) (d L : ℚ)
    (hne : clips ≠ [])
    (hall : ∀ c ∈ clips, cached_validate_video_clip c = true ∧ c.duration = L) :
    (concatenate_videos clips d false).final.map FinalVideo.duration =
      some ((clips.length : ℚ) * L) := by
  have hvalid : validClips clips = clips :=
    List.filter_eq_self.mpr (fun c hc => (hall c hc).1)
  have hne2 : (validClips clips).isEmpty = false := by
    rw [hvalid]
    cases clips with
    | nil => exact absurd rfl hne
    | cons a l => rfl
  rw [concatenate_videos_eq clips d hne2, hvalid]
  have hdur : totalDuration (clips.map Clip.toProc) = (clips.length : ℚ) * L :=
    totalDuration_toProc_const L clips (fun c hc => (hall c hc).2)
  by_cases hd : 0 < d
  · simp [hd, concatenate_videoclips_compose, totalDuration_addCrossfades, hdur]
  · simp [hd, concatenate_videoclips_compose, hdur]

/-- Witness for C3 as amended: two valid 2-second clips with crossfade 0.5
compose to duration 2 * 2 = 4. -/
theorem C3_witness :
    (concatenate_videos [clipA, clipB] (1 / 2) false).final.map
        FinalVideo.duration = some ((([clipA, clipB].length : Nat) : ℚ) * 2) :=
  C3_total_duration [clipA, clipB] (1 / 2) 2 (by simp)
    (by
      intro c hc
      rcases List.mem_cons.mp hc with rfl | hc
      · exact ⟨validate_clipA, rfl⟩
      · rcases List.mem_cons.mp hc with rfl | hc
        · exact ⟨validate_clipB, rfl⟩
        · exact absurd hc (List.not_mem_nil c))

/-- C4 counterexample: with a nonzero crossfade requested, both 2-second
clips keep their full 2-second durations in the composite — the first
(non-last) clip is not tail-trimmed by any frame interval — and the second
clip starts exactly at 2, the untrimmed end of the first. -/
theorem C4_counterexample :
    (concatenate_videos [clipA, clipB] (1 / 2) false).final.map
        (fun fv => fv.clips.map ProcClip.duration) = some [2, 2] ∧
    (concatenate_videos [clipA, clipB] (1 / 2) false).final.map
        FinalVideo.starts = some [0, 2] ∧
    clipA.duration = 2 := by
  refine ⟨?_, ?_, rfl⟩
  · rw [concatenate_videos_eq [clipA, clipB] (1 / 2) validAB_ne, validClips_AB]
    simp only [Option.map_some]
    rw [if_pos (by norm_num : (0 : ℚ) < 1 / 2)]
    norm_num [concatenate_videoclips_compose, addCrossfades, Clip.toProc,
      crossfadein, clipA, clipB]
  · rw [concatenate_videos_eq [clipA, clipB] (1 / 2) validAB_ne, validClips_AB]
    simp only [Option.map_some]
    rw [if_pos (by norm_num : (0 : ℚ) < 1 / 2)]
    norm_num [concatenate_videoclips_compose, addCrossfades, Clip.toProc,
      crossfadein, cumStarts, clipA, clipB]

/-- C4 as amended: `concatenate_videos` never trims any clip, whatever the
crossfade duration — every valid clip appears in the composite with its full
decoded duration; a nonzero crossfade only attaches a fade-in effect to
every clip except the first, and a zero crossfade attaches none. -/
theorem C4_no_trim (clips : List Clip) (d : ℚ)
    (hne : (validClips clips).isEmpty = false) :
    (concatenate_videos clips d false).final.map
        (fun fv => fv.clips.map ProcClip.duration) =
      some ((validClips clips).map Clip.duration) ∧
    (0 < d →
      (concatenate_videos clips d false).final.map
          (fun fv => fv.clips.map ProcClip.fadein) =
        some (0 :: List.replicate ((validClips clips).length - 1) d)) ∧
    (d = 0 →
      (concatenate_videos clips d false).final.map
          (fun fv => fv.clips.map ProcClip.fadein) =
        some (List.replicate (validClips clips).length 0)) := by
  obtain ⟨v, vs, hv⟩ : ∃ v vs, validClips clips = v :: vs := by
    cases h : validClips clips with
    | nil => rw [h] at hne; simp at hne
    | cons a l => exact ⟨a, l, rfl⟩
  rw [concatenate_videos_eq clips d hne]
  refine ⟨?_, ?_, ?_⟩
  · by_cases hd : 0 < d
    · rw [if_pos hd]
      simp only [Option.map_some]
      exact congrArg some (map_duration_addCrossfades_toProc d (validClips clips))
    · rw [if_neg hd]
      simp only [Option.map_some]
      refine congrArg some ?_
      show ((validClips clips).map Clip.toProc).map ProcClip.duration =
        (validClips clips).map Clip.duration
      rw [List.map_map]
      exact List.map_congr_left (fun a _ => rfl)
  · intro hd
    rw [if_pos hd, hv]
    simp only [Option.map_some]
    refine congrArg some ?_
    show (addCrossfades d ((v :: vs).map Clip.toProc)).map ProcClip.fadein =
      0 :: List.replicate ((v :: vs).length - 1) d
    rw [map_fadein_addCrossfades_toProc d v vs]
    simp
  · intro hd
    subst hd
    rw [if_neg (lt_irrefl 0)]
    simp only [Option.map_some, concatenate_videoclips_compose]
    exact congrArg some (map_fadein_toProc (validClips clips))

/-- Witness for C4 as amended, with a nonzero and a zero crossfade. -/
theorem C4_witness :
    (concatenate_videos [clipA, clipB] (1 / 2) false).final.map
        (fun fv => fv.clips.map ProcClip.duration) =
      some ((validClips [clipA, clipB]).map Clip.duration) ∧
    (concatenate_videos [clipA, clipB] (1 / 2) false).final.map
        (fun fv => fv.clips.map ProcClip.fadein) =
      some (0 :: List.replicate ((validClips [clipA, clipB]).length - 1) (1 / 2)) ∧
    (concatenate_videos [clipA, clipB] 0 false).final.map
        (fun fv => fv.clips.map ProcClip.fadein) =
      some (List.replicate (validClips [clipA, clipB]).length 0) :=
  ⟨(C4_no_trim [clipA, clipB] (1 / 2) validAB_ne).1,
   (C4_no_trim [clipA, clipB] (1 / 2) validAB_ne).2.1 (by norm_num),
   (C4_no_trim [clipA, clipB] 0 validAB_ne).2.2 rfl⟩

/-- C9 counterexample: on the success path the loaded clip handle is
returned to the caller still open, so not every handle opened by
`concatenate_videos` is released when it returns. -/
theorem C9_counterexample :
    (concatenate_videos [clipA] 0 false).final.isSome = true ∧
    (concatenate_videos [clipA] 0 false).openHandles = ["a.mp4"] ∧
    (concatenate_videos [clipA] 0 false).openHandles ≠ [] := by
  rw [concatenate_videos_eq [clipA] 0 validA_ne, validClips_A]
  refine ⟨by simp, ?_, ?_⟩
  · simp [clipA]
  · simp [clipA]

/-- C9 as amended: on both failure paths (no valid segments; the
concatenation step raises) every clip handle opened during the call is
released before returning, but on the success path the valid clips are
returned still open (the composite video reads from them lazily), one open
handle per valid clip. -/
theorem C9_handles (clips : List Clip) (d : ℚ) (r : Bool) :
    ((concatenate_videos clips d r).final = none →
      (concatenate_videos clips d r).openHandles = []) ∧
    ((concatenate_videos clips d r).final.isSome = true →
      (concatenate_videos clips d r).openHandles =
        (validClips clips).map Clip.path) := by
  unfold concatenate_videos
  by_cases he : (validClips clips).isEmpty
  · simp [he]
  · cases r
    · simp [he]
    · simp [he]

/-- Witness for C9 as amended: with one valid clip, a raising concatenation
step releases the handle, while success returns it open. -/
theorem C9_witness :
    (concatenate_videos [clipA] 0 true).openHandles = [] ∧
    (concatenate_videos [clipA] 0 false).openHandles =
      (validClips [clipA]).map Clip.path :=
  ⟨(C9_handles [clipA] 0 true).1
     (by simp [concatenate_videos, validA_ne]),
   (C9_handles [clipA] 0 false).2
     (by rw [concatenate_videos_eq [clipA] 0 validA_ne]; simp)⟩

end Longed
